import Mathlib

/-!
Verification of the gobananas batch image-generation core.

Shallow embedding of the resumable batch-orchestration engine:
the progress tracker, the error classifier, the single-request retry
loop and the batch orchestrator.  Definitions are transcribed from the
JavaScript source; impure inputs (clock readings, the remote API call)
are passed as explicit arguments.
-/

namespace Gobananas

/-- Substring test on character lists, mirroring the semantics of the
JavaScript method on strings that checks containment. -/
def listContainsSub (hay needle : List Char) : Bool :=
  match hay with
  | [] => needle.isEmpty
  | _ :: t => needle.isPrefixOf hay || listContainsSub t needle

/-- JavaScript string containment test used by the classifier and the
retryability check. -/
def strIncludes (hay needle : String) : Bool :=
  listContainsSub hay.data needle.data

/-- JavaScript lower-casing, character by character (the messages the
source matches on are basic latin). -/
def lowerString (s : String) : String :=
  ⟨s.data.map Char.toLower⟩

/-- One image definition (a generation request).  Only the id is inspected
by the orchestration core; the prompt stands in for the rest of the
payload. -/
structure ImageDef where
  id : String
  prompt : String
deriving Repr, DecidableEq

/-- One entry of the failed list in the progress file:
an id, an attempt counter, the last error message and the timestamp of
the last attempt (a clock reading modelled as a natural number). -/
structure FailureRecord where
  id : String
  attempts : Nat
  lastError : String
  lastAttempt : Nat
deriving Repr, DecidableEq

/-- The in-memory progress state of ProgressTracker:
completed ids (a JavaScript array, appended to), failed records and the
startedAt timestamp. -/
structure Progress where
  completed : List String
  failed : List FailureRecord
  startedAt : Nat
deriving Repr, DecidableEq

/-- ProgressTracker.isCompleted: membership test in the completed array. -/
def isCompleted (p : Progress) (imageId : String) : Bool :=
  p.completed.contains imageId

/-- ProgressTracker.markCompleted: appends the id unless already present
(then saves; persistence is outside the model). -/
def markCompleted (p : Progress) (imageId : String) : Progress :=
  if p.completed.contains imageId then p
  else { p with completed := p.completed ++ [imageId] }

/-- The failed-record lookup used by markFailed and getFailedAttempts:
first record whose id matches. -/
def findFailure (p : Progress) (imageId : String) : Option FailureRecord :=
  p.failed.find? (fun f => f.id == imageId)

/-- In-place update of the first failed record whose id matches:
increments its attempt counter and overwrites lastError and the
timestamp, leaving every other record unchanged. -/
def updateFirst (l : List FailureRecord) (imageId err : String) (t : Nat) :
    List FailureRecord :=
  match l with
  | [] => []
  | f :: rest =>
      if f.id == imageId then
        { f with attempts := f.attempts + 1, lastError := err, lastAttempt := t } :: rest
      else
        f :: updateFirst rest imageId err t

/-- ProgressTracker.markFailed: if a record for the id exists, increments
its attempts and overwrites lastError and the timestamp; otherwise pushes
a fresh record with attempts 1. -/
def markFailed (p : Progress) (imageId err : String) (t : Nat) : Progress :=
  match findFailure p imageId with
  | some _ => { p with failed := updateFirst p.failed imageId err t }
  | none =>
      { p with failed :=
          p.failed ++ [{ id := imageId, attempts := 1, lastError := err, lastAttempt := t }] }

/-- ProgressTracker.getFailedAttempts: the attempt count of the record for
the id, or 0 when no record exists. -/
def getFailedAttempts (p : Progress) (imageId : String) : Nat :=
  match findFailure p imageId with
  | some r => r.attempts
  | none => 0

/-- ProgressTracker.getRemaining: keeps the images that are neither
completed nor out of retries, preserving order.  The source defaults
maxRetries to 3. -/
def getRemaining (p : Progress) (allImages : List ImageDef)
    (maxRetries : Nat := 3) : List ImageDef :=
  allImages.filter (fun img =>
    if isCompleted p img.id then false
    else if getFailedAttempts p img.id ≥ maxRetries then false
    else true)

/-- The summary returned by ProgressTracker.getStats: lengths of the two
lists and the start timestamp. -/
structure ProgressStats where
  completed : Nat
  failed : Nat
  startedAt : Nat
deriving Repr, DecidableEq

/-- ProgressTracker.getStats. -/
def getStats (p : Progress) : ProgressStats :=
  { completed := p.completed.length
    failed := p.failed.length
    startedAt := p.startedAt }

/-- ProgressTracker.clear: resets to an empty record stamped with the
current clock reading (file removal is outside the model). -/
def clearProgress (t : Nat) : Progress :=
  { completed := [], failed := [], startedAt := t }

/-- The classified errors produced by parseApiError, one constructor per
branch of the source: ApiKeyError, RateLimitError, the safety-filter
GenerationError, ConfigError, the SERVER code GobananaError, the
TIMEOUT GobananaError, and the fallback GenerationError. -/
inductive ParsedError where
  | apiKeyError (message : String)
  | rateLimitError (message : String)
  | safetyError (message : String) (imageId : Option String)
  | configError (message : String)
  | serverError (message : String)
  | timeoutError (message : String)
  | generationError (message : String) (imageId : Option String)
deriving Repr, DecidableEq

/-- The message carried by a classified error. -/
def ParsedError.message : ParsedError → String
  | .apiKeyError m => m
  | .rateLimitError m => m
  | .safetyError m _ => m
  | .configError m => m
  | .serverError m => m
  | .timeoutError m => m
  | .generationError m _ => m

/-- Keyword test of the authentication branch of parseApiError. -/
def authMatch (m : String) : Bool :=
  strIncludes m "api key" || strIncludes m "401" || strIncludes m "unauthorized"

/-- Keyword test of the rate-limit branch of parseApiError. -/
def rateMatch (m : String) : Bool :=
  strIncludes m "rate limit" || strIncludes m "429" || strIncludes m "quota"

/-- Keyword test of the safety branch of parseApiError. -/
def safetyMatch (m : String) : Bool :=
  strIncludes m "safety" || strIncludes m "blocked" || strIncludes m "harmful"

/-- Keyword test of the invalid-request branch of parseApiError. -/
def invalidMatch (m : String) : Bool :=
  strIncludes m "invalid" || strIncludes m "400"

/-- Keyword test of the server-error branch of parseApiError. -/
def serverMatch (m : String) : Bool :=
  strIncludes m "503" || strIncludes m "500" || strIncludes m "server"

/-- Keyword test of the timeout branch of parseApiError. -/
def timeoutMatch (m : String) : Bool :=
  strIncludes m "timeout" || strIncludes m "timed out"

/-- errors.js parseApiError: lower-cases the raw message and applies the
ordered keyword rules, first match wins; the fallback preserves the raw
message unless it is empty (JavaScript falsiness), in which case the
text Unknown error occurred is substituted. -/
def parseApiError (rawMsg : String) (imageId : Option String) : ParsedError :=
  let message := lowerString rawMsg
  if authMatch message then
    .apiKeyError "Invalid or expired API key"
  else if rateMatch message then
    .rateLimitError "API rate limit exceeded. The request will be retried automatically."
  else if safetyMatch message then
    .safetyError
      "Content was blocked by safety filters. Try adjusting your prompt to be less specific or remove potentially problematic content."
      imageId
  else if invalidMatch message then
    .configError ("Invalid request: " ++ rawMsg)
  else if serverMatch message then
    .serverError "Google API server error. This is temporary - please retry."
  else if timeoutMatch message then
    .timeoutError "Request timed out"
  else
    .generationError (if rawMsg = "" then "Unknown error occurred" else rawMsg) imageId

/-- Negation of every keyword rule of parseApiError, on the lower-cased
message: the condition under which the fallback branch is taken. -/
def noRuleMatches (rawMsg : String) : Bool :=
  let m := lowerString rawMsg
  !(authMatch m || rateMatch m || safetyMatch m || invalidMatch m ||
    serverMatch m || timeoutMatch m)

/-- ImageGenerator.isRetryable: decides retry from the raw lower-cased
message, independently of parseApiError. -/
def isRetryable (rawMsg : String) : Bool :=
  let message := lowerString rawMsg
  strIncludes message "rate limit" || strIncludes message "429" ||
  strIncludes message "503" || strIncludes message "timeout" ||
  strIncludes message "temporarily"

/-- The fixed backoff sequence of the executor (milliseconds). -/
def RETRY_DELAYS : List Nat := [1000, 2000, 4000]

/-- Observable side effects of the retry loop: a remote call at a given
attempt index, a progress notification, and a backoff sleep. -/
inductive Ev where
  | attempt (n : Nat)
  | progress (msg : String)
  | sleep (ms : Nat)
deriving Repr, DecidableEq

/-- The progress message emitted before a retry, naming the attempt
number out of the fixed budget. -/
def retryMsg (attempt : Nat) : String :=
  "Retry attempt " ++ toString attempt ++ "/" ++ toString RETRY_DELAYS.length ++ "..."

/-- The retry loop of ImageGenerator.generateImage.  The remote call is
an oracle from the attempt index to either a success value or a raw
error message.  The loop walks the suffix of RETRY_DELAYS not yet
consumed (so a nonempty suffix is exactly the source condition that the
attempt index is below the RETRY_DELAYS length); on a failure it retries
when isRetryable holds on the raw message and delays remain, emitting
the retry notification and the backoff sleep, and otherwise terminates
with the classified error of the last failure. -/
def genLoop (call : Nat → Except String α) (imageId : Option String) :
    Nat → List Nat → Except ParsedError α × List Ev
  | attemptNo, [] =>
    match call attemptNo with
    | Except.ok r => (Except.ok r, [Ev.attempt attemptNo])
    | Except.error e =>
      (Except.error (parseApiError e imageId), [Ev.attempt attemptNo])
  | attemptNo, d :: restDelays =>
    match call attemptNo with
    | Except.ok r => (Except.ok r, [Ev.attempt attemptNo])
    | Except.error e =>
      if isRetryable e then
        let nxt := genLoop call imageId (attemptNo + 1) restDelays
        (nxt.1,
         Ev.attempt attemptNo :: Ev.progress (retryMsg (attemptNo + 1)) ::
           Ev.sleep d :: nxt.2)
      else
        (Except.error (parseApiError e imageId), [Ev.attempt attemptNo])

/-- ImageGenerator.generateImage, restricted to its retry behaviour:
starts at attempt 0 with the full backoff sequence available. -/
def generateImage (call : Nat → Except String α) (imageId : Option String) :
    Except ParsedError α × List Ev :=
  genLoop call imageId 0 RETRY_DELAYS

/-- Chunking loop of ImageGenerator.chunkArray, with explicit fuel.  The
source loop advances the start index by the chunk size and pushes a
slice each iteration; for a positive size it runs at most the length of
the array many iterations, so fuel equal to the length is enough (for
size 0 the source loop never terminates; the model then stops when the
fuel runs out). -/
def chunkLoop (size : Nat) : Nat → List α → List (List α)
  | 0, _ => []
  | _ + 1, [] => []
  | fuel + 1, a :: rest => (a :: rest).take size :: chunkLoop size fuel ((a :: rest).drop size)

/-- ImageGenerator.chunkArray: splits a list into contiguous chunks of
the given size. -/
def chunkArray (array : List α) (size : Nat) : List (List α) :=
  chunkLoop size array.length array

/-- Options of ImageGenerator.generateBatch that the model observes
(clearing progress and the concurrency bound), with the source defaults. -/
structure BatchOptions where
  freshStart : Bool := false
  concurrency : Nat := 5
deriving Repr, DecidableEq

/-- Per-image terminal outcome inside generateBatch: the success value
returned by generateImage, or the id paired with the terminal error
message. -/
inductive Outcome (α : Type) where
  | success (result : α)
  | failure (imageId : String) (errMsg : String)
deriving Repr, DecidableEq

/-- The summary object built by generateBatch. -/
structure BatchResults (α : Type) where
  successful : List α
  failed : List (String × String)
  skipped : Nat
deriving Repr, DecidableEq

/-- One image processed inside generateBatch: run the retry loop and, on
a terminal outcome, update the tracker (markCompleted on success,
markFailed with the error message on failure).  The state carries the
progress record and the clock. -/
def stepImage (oracle : String → Nat → Except String α)
    (st : Progress × Nat) (img : ImageDef) : Outcome α × Progress × Nat :=
  match (generateImage (oracle img.id) (some img.id)).1 with
  | Except.ok r => (Outcome.success r, markCompleted st.1 img.id, st.2)
  | Except.error e =>
      (Outcome.failure img.id e.message,
       markFailed st.1 img.id e.message st.2, st.2 + 1)

/-- One concurrency chunk of generateBatch: every member reaches a
terminal outcome before the next chunk starts; outcomes are collected in
chunk order (the order the source Promise.all preserves). -/
def processChunk (oracle : String → Nat → Except String α)
    (chunk : List ImageDef) (st : Progress × Nat) :
    List (Outcome α) × Progress × Nat :=
  match chunk with
  | [] => ([], st.1, st.2)
  | img :: rest =>
      let o := stepImage oracle st img
      let os := processChunk oracle rest (o.2.1, o.2.2)
      (o.1 :: os.1, os.2.1, os.2.2)

/-- The push loop of generateBatch that appends chunk outcomes to the
summary: successes to successful, failures to failed. -/
def collectResults (outcomes : List (Outcome α)) (acc : BatchResults α) :
    BatchResults α :=
  match outcomes with
  | [] => acc
  | Outcome.success r :: rest =>
      collectResults rest { acc with successful := acc.successful ++ [r] }
  | Outcome.failure i e :: rest =>
      collectResults rest { acc with failed := acc.failed ++ [(i, e)] }

/-- The chunk loop of generateBatch: processes chunks in order, threading
the progress state and accumulating the summary. -/
def runChunks (oracle : String → Nat → Except String α)
    (chunks : List (List ImageDef)) (st : Progress × Nat)
    (acc : BatchResults α) : BatchResults α × Progress × Nat :=
  match chunks with
  | [] => (acc, st.1, st.2)
  | chunk :: rest =>
      let r := processChunk oracle chunk st
      runChunks oracle rest (r.2.1, r.2.2) (collectResults r.1 acc)

/-- ImageGenerator.generateBatch: optionally clears progress, computes
the remaining images (maxRetries 3), records the skipped count, chunks
the remaining images by the concurrency bound and processes every chunk,
returning the summary together with the final progress state and clock. -/
def generateBatch (oracle : String → Nat → Except String α)
    (images : List ImageDef) (opts : BatchOptions) (p : Progress) (t : Nat) :
    BatchResults α × Progress × Nat :=
  let p0 := if opts.freshStart then clearProgress t else p
  let t0 := if opts.freshStart then t + 1 else t
  let remaining := getRemaining p0 images 3
  let chunks := chunkArray remaining opts.concurrency
  runChunks oracle chunks (p0, t0)
    { successful := [], failed := [], skipped := images.length - remaining.length }

/-- Iterated markFailed for one id: each call supplies an error message
and a clock reading. -/
def markFailedSeq (p : Progress) (imageId : String) (calls : List (String × Nat)) :
    Progress :=
  calls.foldl (fun q c => markFailed q imageId c.1 c.2) p

theorem find?_updateFirst_self (imageId e : String) (t : Nat) :
    ∀ (l : List FailureRecord) (r : FailureRecord),
      l.find? (fun f => f.id == imageId) = some r →
      (updateFirst l imageId e t).find? (fun f => f.id == imageId)
        = some { r with attempts := r.attempts + 1, lastError := e, lastAttempt := t } := by
  intro l
  induction l with
  | nil => intro r hr; simp [List.find?] at hr
  | cons f rest ih =>
      intro r hr
      by_cases hf : f.id = imageId
      · rw [List.find?_cons_of_pos rest (by simpa using hf)] at hr
        cases hr
        rw [updateFirst, if_pos (by simpa using hf)]
        exact List.find?_cons_of_pos rest (by simpa using hf)
      · rw [List.find?_cons_of_neg rest (by simpa using hf)] at hr
        rw [updateFirst, if_neg (by simpa using hf)]
        rw [List.find?_cons_of_neg _ (by simpa using hf)]
        exact ih r hr

theorem find?_updateFirst_other (imageId e : String) (t : Nat) (i : String)
    (hne : i ≠ imageId) :
    ∀ l : List FailureRecord,
      (updateFirst l imageId e t).find? (fun f => f.id == i)
        = l.find? (fun f => f.id == i) := by
  intro l
  induction l with
  | nil => simp [updateFirst]
  | cons f rest ih =>
      by_cases hf : f.id = imageId
      · have hfi : ¬ (f.id == i) = true := by
          simp only [beq_iff_eq, hf]
          exact fun hh => hne hh.symm
        rw [updateFirst, if_pos (by simpa using hf)]
        rw [List.find?_cons_of_neg _ (by simpa using hfi)]
        rw [List.find?_cons_of_neg _ (by simpa using hfi)]
      · rw [updateFirst, if_neg (by simpa using hf)]
        by_cases hfi : f.id = i
        · rw [List.find?_cons_of_pos _ (by simpa using hfi)]
          rw [List.find?_cons_of_pos _ (by simpa using hfi)]
        · rw [List.find?_cons_of_neg _ (by simpa using hfi)]
          rw [List.find?_cons_of_neg _ (by simpa using hfi)]
          exact ih

theorem updateFirst_length (imageId e : String) (t : Nat) :
    ∀ l : List FailureRecord, (updateFirst l imageId e t).length = l.length := by
  intro l
  induction l with
  | nil => rfl
  | cons f rest ih =>
      simp only [updateFirst]
      cases hf : (f.id == imageId) <;> simp [ih]

theorem markFailed_failed_of_found (p : Progress) (imageId e : String) (t : Nat)
    (r : FailureRecord) (hf : findFailure p imageId = some r) :
    markFailed p imageId e t = { p with failed := updateFirst p.failed imageId e t } := by
  unfold markFailed
  rw [hf]

theorem markFailed_failed_of_missing (p : Progress) (imageId e : String) (t : Nat)
    (hf : findFailure p imageId = none) :
    markFailed p imageId e t
      = { p with failed :=
            p.failed ++ [{ id := imageId, attempts := 1, lastError := e, lastAttempt := t }] } := by
  unfold markFailed
  rw [hf]

theorem findFailure_markFailed_self (p : Progress) (imageId e : String) (t : Nat) :
    findFailure (markFailed p imageId e t) imageId
      = some (match findFailure p imageId with
              | some r => { r with attempts := r.attempts + 1, lastError := e, lastAttempt := t }
              | none => { id := imageId, attempts := 1, lastError := e, lastAttempt := t }) := by
  cases hf : findFailure p imageId with
  | some r =>
      rw [markFailed_failed_of_found p imageId e t r hf]
      exact find?_updateFirst_self imageId e t p.failed r (by simpa [findFailure] using hf)
  | none =>
      rw [markFailed_failed_of_missing p imageId e t hf]
      have hf' : p.failed.find? (fun f => f.id == imageId) = none := by
        simpa [findFailure] using hf
      show (p.failed ++ [_]).find? (fun f : FailureRecord => f.id == imageId) = _
      rw [List.find?_append, hf']
      simp [List.find?]

theorem findFailure_markFailed_other (p : Progress) (imageId e : String) (t : Nat)
    (i : String) (hne : i ≠ imageId) :
    findFailure (markFailed p imageId e t) i = findFailure p i := by
  cases hf : findFailure p imageId with
  | some r =>
      rw [markFailed_failed_of_found p imageId e t r hf]
      exact find?_updateFirst_other imageId e t i hne p.failed
  | none =>
      rw [markFailed_failed_of_missing p imageId e t hf]
      show (p.failed ++ [_]).find? (fun f : FailureRecord => f.id == i) = _
      rw [List.find?_append]
      have hnil : ([({ id := imageId, attempts := 1, lastError := e, lastAttempt := t } :
          FailureRecord)].find? (fun f => f.id == i)) = none := by
        rw [List.find?_cons_of_neg]
        · rfl
        · simp only [beq_iff_eq]
          exact fun h => hne h.symm
      rw [hnil]
      simp [findFailure]

theorem getFailedAttempts_markFailed_self (p : Progress) (imageId e : String) (t : Nat) :
    getFailedAttempts (markFailed p imageId e t) imageId
      = getFailedAttempts p imageId + 1 := by
  rw [getFailedAttempts, findFailure_markFailed_self]
  cases hf : findFailure p imageId <;> simp [getFailedAttempts, hf]

theorem getFailedAttempts_markFailed_other (p : Progress) (imageId e : String) (t : Nat)
    (i : String) (hne : i ≠ imageId) :
    getFailedAttempts (markFailed p imageId e t) i = getFailedAttempts p i := by
  rw [getFailedAttempts, findFailure_markFailed_other p imageId e t i hne, getFailedAttempts]

theorem markCompleted_failed (p : Progress) (imageId : String) :
    (markCompleted p imageId).failed = p.failed := by
  unfold markCompleted
  split <;> rfl

theorem markCompleted_startedAt (p : Progress) (imageId : String) :
    (markCompleted p imageId).startedAt = p.startedAt := by
  unfold markCompleted
  split <;> rfl

theorem findFailure_markCompleted (p : Progress) (imageId i : String) :
    findFailure (markCompleted p imageId) i = findFailure p i := by
  unfold findFailure
  rw [markCompleted_failed]

theorem getFailedAttempts_markCompleted (p : Progress) (imageId i : String) :
    getFailedAttempts (markCompleted p imageId) i = getFailedAttempts p i := by
  unfold getFailedAttempts
  rw [findFailure_markCompleted]

theorem markFailedSeq_attempts (imageId : String) :
    ∀ (calls : List (String × Nat)) (p : Progress),
      getFailedAttempts (markFailedSeq p imageId calls) imageId
        = getFailedAttempts p imageId + calls.length := by
  intro calls
  induction calls with
  | nil => intro p; rfl
  | cons c rest ih =>
      intro p
      show getFailedAttempts (markFailedSeq (markFailed p imageId c.1 c.2) imageId rest) imageId
        = getFailedAttempts p imageId + (c :: rest).length
      rw [ih, getFailedAttempts_markFailed_self, List.length_cons]
      omega

theorem contains_append_self (l : List String) (a : String) :
    (l ++ [a]).contains a = true := by
  simp

/-- Claim C8: starting from a state with no failure record for an id,
getFailedAttempts reads 0; after any finite sequence of markFailed calls
for that id it equals the number of calls; the first call creates a
record with attempts 1 carrying the supplied error and timestamp, and
each call on a state that already has a record increments its attempts
and overwrites lastError and the timestamp. -/
theorem markFailed_counting (p : Progress) (imageId : String)
    (calls : List (String × Nat)) (h : findFailure p imageId = none) :
    getFailedAttempts p imageId = 0
    ∧ getFailedAttempts (markFailedSeq p imageId calls) imageId = calls.length
    ∧ (∀ e t, findFailure (markFailed p imageId e t) imageId
        = some { id := imageId, attempts := 1, lastError := e, lastAttempt := t })
    ∧ (∀ (q : Progress) (r : FailureRecord) (e : String) (t : Nat),
        findFailure q imageId = some r →
        findFailure (markFailed q imageId e t) imageId
          = some { id := r.id, attempts := r.attempts + 1, lastError := e, lastAttempt := t }) := by
  have h0 : getFailedAttempts p imageId = 0 := by simp [getFailedAttempts, h]
  refine ⟨h0, ?_, ?_, ?_⟩
  · rw [markFailedSeq_attempts, h0, Nat.zero_add]
  · intro e t
    rw [findFailure_markFailed_self, h]
  · intro q r e t hq
    rw [findFailure_markFailed_self, hq]

/-- Witness for C8 at a concrete store and call sequence. -/
theorem markFailed_counting_witness :
    getFailedAttempts { completed := [], failed := [], startedAt := 0 } "a" = 0
    ∧ getFailedAttempts
        (markFailedSeq { completed := [], failed := [], startedAt := 0 } "a"
          [("e1", 1), ("e2", 2), ("e3", 3)]) "a" = 3
    ∧ (∀ e t, findFailure
        (markFailed { completed := [], failed := [], startedAt := 0 } "a" e t) "a"
        = some { id := "a", attempts := 1, lastError := e, lastAttempt := t })
    ∧ (∀ (q : Progress) (r : FailureRecord) (e : String) (t : Nat),
        findFailure q "a" = some r →
        findFailure (markFailed q "a" e t) "a"
          = some { id := r.id, attempts := r.attempts + 1, lastError := e, lastAttempt := t }) :=
  markFailed_counting { completed := [], failed := [], startedAt := 0 } "a"
    [("e1", 1), ("e2", 2), ("e3", 3)] rfl

/-- Claim C9: markCompleted is idempotent — a second call for the same
id leaves the store exactly as after the first call. -/
theorem markCompleted_idempotent (p : Progress) (imageId : String) :
    markCompleted (markCompleted p imageId) imageId = markCompleted p imageId := by
  by_cases h : imageId ∈ p.completed
  · simp [markCompleted, h]
  · simp [markCompleted, h]

theorem chunkLoop_nil (size fuel : Nat) :
    chunkLoop (α := α) size fuel [] = [] := by
  cases fuel <;> rfl

theorem chunkLoop_flatten (size : Nat) (hs : 0 < size) :
    ∀ (fuel : Nat) (l : List α), l.length ≤ fuel →
      (chunkLoop size fuel l).flatten = l := by
  intro fuel
  induction fuel with
  | zero =>
      intro l hl
      have : l = [] := List.eq_nil_of_length_eq_zero (Nat.le_zero.mp hl)
      subst this
      rfl
  | succ fuel ih =>
      intro l hl
      cases l with
      | nil => rfl
      | cons a rest =>
          show (((a :: rest).take size :: chunkLoop size fuel ((a :: rest).drop size)).flatten) = _
          rw [List.flatten_cons, ih ((a :: rest).drop size) (by
            rw [List.length_drop]
            simp only [List.length_cons] at hl ⊢
            omega)]
          exact List.take_append_drop size (a :: rest)

theorem chunkLoop_mem_length (size : Nat) :
    ∀ (fuel : Nat) (l : List α) (c : List α), c ∈ chunkLoop size fuel l →
      c.length ≤ size := by
  intro fuel
  induction fuel with
  | zero => intro l c hc; simp [chunkLoop] at hc
  | succ fuel ih =>
      intro l c hc
      cases l with
      | nil => simp [chunkLoop] at hc
      | cons a rest =>
          rw [chunkLoop] at hc
          rcases List.mem_cons.mp hc with h | h
          · subst h
            rw [List.length_take]
            exact Nat.min_le_left _ _
          · exact ih _ c h

theorem chunkLoop_dropLast_length (size : Nat) (hs : 0 < size) :
    ∀ (fuel : Nat) (l : List α) (c : List α),
      c ∈ (chunkLoop size fuel l).dropLast → c.length = size := by
  intro fuel
  induction fuel with
  | zero => intro l c hc; simp [chunkLoop] at hc
  | succ fuel ih =>
      intro l c hc
      cases l with
      | nil => simp [chunkLoop] at hc
      | cons a rest =>
          rw [chunkLoop] at hc
          cases hrec : chunkLoop size fuel ((a :: rest).drop size) with
          | nil => rw [hrec] at hc; simp at hc
          | cons b bs =>
              rw [hrec, List.dropLast_cons₂] at hc
              rcases List.mem_cons.mp hc with h | h
              · subst h
                have hdrop : (a :: rest).drop size ≠ [] := by
                  intro hd
                  rw [hd, chunkLoop_nil] at hrec
                  exact List.noConfusion hrec
                have hlen : size < (a :: rest).length := by
                  by_contra hnot
                  exact hdrop (List.drop_eq_nil_of_le (Nat.le_of_not_lt hnot))
                rw [List.length_take]
                omega
              · exact ih ((a :: rest).drop size) c (by rw [hrec]; exact h)

/-- Claim C7: for a positive chunk size, chunkArray splits a list into
contiguous groups whose concatenation is the original list, every group
has at most the requested size, and every group except possibly the last
has exactly the requested size. -/
theorem chunkArray_spec (l : List α) (n : Nat) (h : 0 < n) :
    (chunkArray l n).flatten = l
    ∧ (∀ c ∈ chunkArray l n, c.length ≤ n)
    ∧ (∀ c ∈ (chunkArray l n).dropLast, c.length = n) :=
  ⟨chunkLoop_flatten n h l.length l (Nat.le_refl _),
   fun c hc => chunkLoop_mem_length n l.length l c hc,
   fun c hc => chunkLoop_dropLast_length n h l.length l c hc⟩

/-- Witness for C7 on a concrete five-element list with chunk size two. -/
theorem chunkArray_spec_witness :
    (chunkArray [1, 2, 3, 4, 5] 2).flatten = [1, 2, 3, 4, 5]
    ∧ (∀ c ∈ chunkArray [1, 2, 3, 4, 5] 2, c.length ≤ 2)
    ∧ (∀ c ∈ (chunkArray [1, 2, 3, 4, 5] 2).dropLast, c.length = 2) :=
  chunkArray_spec [1, 2, 3, 4, 5] 2 (by decide)

/-- Claim C1: getRemaining filters the request list by the conjunction
of not-completed and failed-attempts-below-the-budget, is a sublist of
the input (order preserved), and contains exactly the requests whose id
is not completed and whose failure count is below the budget. -/
theorem getRemaining_spec (p : Progress) (R : List ImageDef) (k : Nat) :
    getRemaining p R k
      = R.filter (fun r => decide (r.id ∉ p.completed ∧ getFailedAttempts p r.id < k))
    ∧ (getRemaining p R k).Sublist R
    ∧ (∀ r, r ∈ getRemaining p R k ↔
        r ∈ R ∧ r.id ∉ p.completed ∧ getFailedAttempts p r.id < k) := by
  have hfe : getRemaining p R k
      = R.filter (fun r => decide (r.id ∉ p.completed ∧ getFailedAttempts p r.id < k)) := by
    unfold getRemaining
    apply List.filter_congr
    intro r _
    by_cases hc : r.id ∈ p.completed
    · simp [isCompleted, hc]
    · by_cases hk : getFailedAttempts p r.id ≥ k
      · simp [isCompleted, hc, hk, Nat.not_lt.mpr hk]
      · simp [isCompleted, hc, hk, Nat.lt_of_not_le hk]
  refine ⟨hfe, ?_, ?_⟩
  · rw [hfe]; exact List.filter_sublist R
  · intro r
    rw [hfe, List.mem_filter]
    simp

theorem genLoop_ok (call : Nat → Except String α) (imageId : Option String)
    (a : Nat) (ds : List Nat) (r : α) (hc : call a = Except.ok r) :
    genLoop call imageId a ds = (Except.ok r, [Ev.attempt a]) := by
  cases ds <;> simp [genLoop, hc]

theorem genLoop_error_exhausted (call : Nat → Except String α) (imageId : Option String)
    (a : Nat) (e : String) (hc : call a = Except.error e) :
    genLoop call imageId a [] = (Except.error (parseApiError e imageId), [Ev.attempt a]) := by
  simp [genLoop, hc]

theorem genLoop_error_noretry (call : Nat → Except String α) (imageId : Option String)
    (a : Nat) (ds : List Nat) (e : String) (hc : call a = Except.error e)
    (hnr : isRetryable e = false) :
    genLoop call imageId a ds = (Except.error (parseApiError e imageId), [Ev.attempt a]) := by
  cases ds <;> simp [genLoop, hc, hnr]

theorem genLoop_error_retry (call : Nat → Except String α) (imageId : Option String)
    (a d : Nat) (ds : List Nat) (e : String) (hc : call a = Except.error e)
    (hr : isRetryable e = true) :
    genLoop call imageId a (d :: ds)
      = ((genLoop call imageId (a + 1) ds).1,
         Ev.attempt a :: Ev.progress (retryMsg (a + 1)) :: Ev.sleep d ::
           (genLoop call imageId (a + 1) ds).2) := by
  simp [genLoop, hc, hr]

theorem attempt_mem_genLoop (call : Nat → Except String α) (imageId : Option String)
    (a : Nat) (ds : List Nat) :
    Ev.attempt a ∈ (genLoop call imageId a ds).2 := by
  cases hc : call a with
  | ok r => rw [genLoop_ok call imageId a ds r hc]; exact List.mem_singleton.mpr rfl
  | error e =>
      cases ds with
      | nil =>
          rw [genLoop_error_exhausted call imageId a e hc]
          exact List.mem_singleton.mpr rfl
      | cons d rest =>
          cases hr : isRetryable e with
          | false =>
              rw [genLoop_error_noretry call imageId a (d :: rest) e hc hr]
              exact List.mem_singleton.mpr rfl
          | true =>
              rw [genLoop_error_retry call imageId a d rest e hc hr]
              exact List.mem_cons_self _ _

/-- Claim C2 (as stated): a request whose remote call keeps failing with
one retryable raw error makes the initial attempt plus exactly three
retries, emits the retry notification naming the attempt number and
sleeps the doubling delays 1000, 2000, 4000 before the respective
retries, and terminates with the classified error. -/
theorem generateImage_retryable_budget (α : Type) (e : String)
    (imageId : Option String) (h : isRetryable e = true) :
    generateImage (fun _ => (Except.error e : Except String α)) imageId
      = (Except.error (parseApiError e imageId),
         [Ev.attempt 0, Ev.progress "Retry attempt 1/3...", Ev.sleep 1000,
          Ev.attempt 1, Ev.progress "Retry attempt 2/3...", Ev.sleep 2000,
          Ev.attempt 2, Ev.progress "Retry attempt 3/3...", Ev.sleep 4000,
          Ev.attempt 3]) := by
  rw [generateImage, RETRY_DELAYS]
  rw [genLoop_error_retry _ imageId 0 1000 _ e rfl h]
  rw [genLoop_error_retry _ imageId 1 2000 _ e rfl h]
  rw [genLoop_error_retry _ imageId 2 4000 _ e rfl h]
  rw [genLoop_error_exhausted _ imageId 3 e rfl]
  rfl

/-- Witness for C2 with the concrete retryable raw error 429. -/
theorem generateImage_retryable_budget_witness :
    isRetryable "429" = true
    ∧ generateImage (fun _ => (Except.error "429" : Except String Unit)) none
      = (Except.error (parseApiError "429" none),
         [Ev.attempt 0, Ev.progress "Retry attempt 1/3...", Ev.sleep 1000,
          Ev.attempt 1, Ev.progress "Retry attempt 2/3...", Ev.sleep 2000,
          Ev.attempt 2, Ev.progress "Retry attempt 3/3...", Ev.sleep 4000,
          Ev.attempt 3]) :=
  ⟨by decide, generateImage_retryable_budget Unit "429" none (by decide)⟩

/-- Counterexample to claim C3 as stated: the raw message quota exceeded
is classified RateLimitError — a retryable class according to the claim —
yet the executor performs no retry: it terminates on the very first
attempt with the classified error. -/
theorem retry_vs_classification_cex :
    parseApiError "quota exceeded" (some "img1")
      = ParsedError.rateLimitError
          "API rate limit exceeded. The request will be retried automatically."
    ∧ generateImage (fun _ => (Except.error "quota exceeded" : Except String Unit))
          (some "img1")
      = (Except.error (ParsedError.rateLimitError
            "API rate limit exceeded. The request will be retried automatically."),
         [Ev.attempt 0]) :=
  ⟨rfl, rfl⟩

/-- Claim C3 as amended: the executor retries a failed attempt exactly
when isRetryable holds of the raw message (the lower-cased message
contains one of rate limit, 429, 503, timeout, temporarily), regardless
of the classified type; when isRetryable is false the classified error
is the terminal outcome of the first attempt. -/
theorem generateImage_retry_iff (call : Nat → Except String α)
    (imageId : Option String) (e : String) (hc : call 0 = Except.error e) :
    (Ev.attempt 1 ∈ (generateImage call imageId).2 ↔ isRetryable e = true)
    ∧ (isRetryable e = false →
        generateImage call imageId
          = (Except.error (parseApiError e imageId), [Ev.attempt 0])) := by
  have hstop : isRetryable e = false →
      generateImage call imageId
        = (Except.error (parseApiError e imageId), [Ev.attempt 0]) := by
    intro hnr
    rw [generateImage, RETRY_DELAYS, genLoop_error_noretry call imageId 0 _ e hc hnr]
  refine ⟨⟨?_, ?_⟩, hstop⟩
  · intro hmem
    cases hr : isRetryable e with
    | true => rfl
    | false =>
        rw [hstop hr] at hmem
        simp at hmem
  · intro hr
    rw [generateImage, RETRY_DELAYS, genLoop_error_retry call imageId 0 1000 _ e hc hr]
    exact List.mem_cons_of_mem _ (List.mem_cons_of_mem _ (List.mem_cons_of_mem _
      (attempt_mem_genLoop call imageId 1 [2000, 4000])))

/-- Witness for the amended C3 at the concrete retryable error 503. -/
theorem generateImage_retry_iff_witness :
    (Ev.attempt 1 ∈ (generateImage (fun _ => (Except.error "503" : Except String Unit)) none).2
      ↔ isRetryable "503" = true)
    ∧ (isRetryable "503" = false →
        generateImage (fun _ => (Except.error "503" : Except String Unit)) none
          = (Except.error (parseApiError "503" none), [Ev.attempt 0])) :=
  generateImage_retry_iff (fun _ => (Except.error "503" : Except String Unit)) none "503" rfl

/-- Counterexample to claim C4 as stated: the empty raw message matches
no keyword rule, yet the fallback does not preserve the original message
text — the source substitutes the text Unknown error occurred for a
falsy message. -/
theorem parseApiError_empty_cex :
    noRuleMatches "" = true
    ∧ parseApiError "" none = ParsedError.generationError "Unknown error occurred" none
    ∧ ParsedError.generationError "Unknown error occurred" none
        ≠ ParsedError.generationError "" none :=
  ⟨rfl, rfl, by decide⟩

/-- Claim C4 as amended: parseApiError lower-cases the message and
applies the keyword rules in order auth, rate-limit, safety, malformed,
server, timeout, fallback, first match winning (a message matching both
the auth and the rate-limit rule is classified as an auth error); the
message 429 quota exceeded yields RateLimitError, 401 unauthorized
yields ApiKeyError, and any nonempty message matching no rule yields
the fallback generation error carrying the original message text (an
empty message yields the fallback with the text Unknown error occurred,
as shown by the counterexample). -/
theorem parseApiError_rules (rawMsg : String) (imageId : Option String)
    (h1 : noRuleMatches rawMsg = true) (h2 : rawMsg ≠ "") :
    parseApiError rawMsg imageId = ParsedError.generationError rawMsg imageId
    ∧ (∀ iid, parseApiError "429 quota exceeded" iid
        = ParsedError.rateLimitError
            "API rate limit exceeded. The request will be retried automatically.")
    ∧ (∀ iid, parseApiError "401 unauthorized" iid
        = ParsedError.apiKeyError "Invalid or expired API key")
    ∧ (∀ iid, parseApiError "401 rate limit 429" iid
        = ParsedError.apiKeyError "Invalid or expired API key")
    ∧ (∀ iid, parseApiError "" iid
        = ParsedError.generationError "Unknown error occurred" iid) := by
  refine ⟨?_, fun iid => rfl, fun iid => rfl, fun iid => rfl, fun iid => rfl⟩
  have h' := h1
  simp only [noRuleMatches, Bool.not_eq_true', Bool.or_eq_false_iff] at h'
  obtain ⟨⟨⟨⟨⟨ha, hr⟩, hsf⟩, hi⟩, hsv⟩, ht⟩ := h'
  simp [parseApiError, ha, hr, hsf, hi, hsv, ht, h2]

/-- Witness for the amended C4 at a concrete unrecognized message. -/
theorem parseApiError_rules_witness :
    parseApiError "mystery failure" none
      = ParsedError.generationError "mystery failure" none :=
  (parseApiError_rules "mystery failure" none (by decide) (by decide)).1

/-- Claim C10: markCompleted touches only the completed list — it never
removes a failure record.  After markFailed then markCompleted for the
same id, the id is in the completed list while its failure record (with
its attempts and lastError) is still present unchanged, getStats still
counts it among the failed, and getRemaining excludes it (the completed
check is tested first). -/
theorem markCompleted_frame (p : Progress) (imageId e : String) (t : Nat) :
    (∀ (q : Progress) (i : String),
      (markCompleted q i).failed = q.failed ∧ (markCompleted q i).startedAt = q.startedAt)
    ∧ (markCompleted (markFailed p imageId e t) imageId).completed.contains imageId = true
    ∧ findFailure (markCompleted (markFailed p imageId e t) imageId) imageId
        = findFailure (markFailed p imageId e t) imageId
    ∧ (findFailure (markCompleted (markFailed p imageId e t) imageId) imageId).isSome = true
    ∧ (getStats (markCompleted (markFailed p imageId e t) imageId)).failed
        = (markFailed p imageId e t).failed.length
    ∧ 1 ≤ (getStats (markCompleted (markFailed p imageId e t) imageId)).failed
    ∧ (∀ (R : List ImageDef) (k : Nat) (r : ImageDef),
        r ∈ getRemaining (markCompleted (markFailed p imageId e t) imageId) R k →
        r.id ≠ imageId) := by
  have hframe : ∀ (q : Progress) (i : String),
      (markCompleted q i).failed = q.failed ∧ (markCompleted q i).startedAt = q.startedAt :=
    fun q i => ⟨markCompleted_failed q i, markCompleted_startedAt q i⟩
  have hmem : (markCompleted (markFailed p imageId e t) imageId).completed.contains imageId
      = true := by
    unfold markCompleted
    by_cases h : imageId ∈ (markFailed p imageId e t).completed
    · simp [h]
    · simp [h]
  have hfind : findFailure (markCompleted (markFailed p imageId e t) imageId) imageId
      = findFailure (markFailed p imageId e t) imageId :=
    findFailure_markCompleted _ _ _
  have hsome : (findFailure (markCompleted (markFailed p imageId e t) imageId) imageId).isSome
      = true := by
    rw [hfind, findFailure_markFailed_self]
    rfl
  have hlen : (getStats (markCompleted (markFailed p imageId e t) imageId)).failed
      = (markFailed p imageId e t).failed.length := by
    unfold getStats
    rw [markCompleted_failed]
  refine ⟨hframe, hmem, hfind, hsome, hlen, ?_, ?_⟩
  · rw [hlen]
    cases hf : findFailure p imageId with
    | some r =>
        rw [markFailed_failed_of_found p imageId e t r hf]
        show 1 ≤ (updateFirst p.failed imageId e t).length
        rw [updateFirst_length]
        have hne : p.failed ≠ [] := by
          intro hnil
          unfold findFailure at hf
          rw [hnil] at hf
          simp [List.find?] at hf
        exact Nat.succ_le_of_lt (List.length_pos.mpr hne)
    | none =>
        rw [markFailed_failed_of_missing p imageId e t hf]
        simp
  · intro R k r hr
    have hfilter := (List.mem_filter.mp hr).2
    intro hid
    rw [hid] at hfilter
    rw [if_pos (by simpa [isCompleted] using hmem)] at hfilter
    exact Bool.noConfusion hfilter

/-- Witness for C10 at a concrete store, id and error. -/
theorem markCompleted_frame_witness :
    (∀ (q : Progress) (i : String),
      (markCompleted q i).failed = q.failed ∧ (markCompleted q i).startedAt = q.startedAt)
    ∧ (markCompleted (markFailed { completed := [], failed := [], startedAt := 0 } "a" "boom" 7)
        "a").completed.contains "a" = true
    ∧ findFailure (markCompleted
          (markFailed { completed := [], failed := [], startedAt := 0 } "a" "boom" 7) "a") "a"
        = findFailure (markFailed { completed := [], failed := [], startedAt := 0 } "a" "boom" 7) "a"
    ∧ (findFailure (markCompleted
          (markFailed { completed := [], failed := [], startedAt := 0 } "a" "boom" 7) "a")
            "a").isSome = true
    ∧ (getStats (markCompleted
          (markFailed { completed := [], failed := [], startedAt := 0 } "a" "boom" 7) "a")).failed
        = (markFailed { completed := [], failed := [], startedAt := 0 } "a" "boom" 7).failed.length
    ∧ 1 ≤ (getStats (markCompleted
          (markFailed { completed := [], failed := [], startedAt := 0 } "a" "boom" 7) "a")).failed
    ∧ (∀ (R : List ImageDef) (k : Nat) (r : ImageDef),
        r ∈ getRemaining (markCompleted
          (markFailed { completed := [], failed := [], startedAt := 0 } "a" "boom" 7) "a") R k →
        r.id ≠ "a") :=
  markCompleted_frame { completed := [], failed := [], startedAt := 0 } "a" "boom" 7

/-- The terminal error message a request ends with when its retry loop
fails (empty string when the loop succeeds, a case the lemmas about
always-failing oracles never reach). -/
def errMsgOf (oracle : String → Nat → Except String α) (img : ImageDef) : String :=
  match (generateImage (oracle img.id) (some img.id)).1 with
  | Except.ok _ => ""
  | Except.error pe => pe.message

theorem genLoop_isError (call : Nat → Except String α) (imageId : Option String)
    (h : ∀ n, ∃ m, call n = Except.error m) :
    ∀ (ds : List Nat) (a : Nat), ∃ pe, (genLoop call imageId a ds).1 = Except.error pe := by
  intro ds
  induction ds with
  | nil =>
      intro a
      obtain ⟨m, hm⟩ := h a
      exact ⟨parseApiError m imageId, by rw [genLoop_error_exhausted call imageId a m hm]⟩
  | cons d rest ih =>
      intro a
      obtain ⟨m, hm⟩ := h a
      cases hr : isRetryable m with
      | false =>
          exact ⟨parseApiError m imageId,
            by rw [genLoop_error_noretry call imageId a (d :: rest) m hm hr]⟩
      | true =>
          obtain ⟨pe, hpe⟩ := ih (a + 1)
          exact ⟨pe, by rw [genLoop_error_retry call imageId a d rest m hm hr]; exact hpe⟩

theorem stepImage_error (oracle : String → Nat → Except String α)
    (st : Progress × Nat) (img : ImageDef)
    (h : ∀ n, ∃ m, oracle img.id n = Except.error m) :
    stepImage oracle st img
      = (Outcome.failure img.id (errMsgOf oracle img),
         markFailed st.1 img.id (errMsgOf oracle img) st.2, st.2 + 1) := by
  obtain ⟨pe, hpe⟩ := genLoop_isError (oracle img.id) (some img.id) h RETRY_DELAYS 0
  have hpe' : (generateImage (oracle img.id) (some img.id)).1 = Except.error pe := hpe
  have hmsg : errMsgOf oracle img = pe.message := by
    unfold errMsgOf
    rw [hpe']
  unfold stepImage
  rw [hpe', hmsg]

theorem getFailedAttempts_stepImage_mono (oracle : String → Nat → Except String α)
    (st : Progress × Nat) (img : ImageDef) (i : String) :
    getFailedAttempts st.1 i ≤ getFailedAttempts ((stepImage oracle st img).2.1) i := by
  unfold stepImage
  cases hg : (generateImage (oracle img.id) (some img.id)).1 with
  | ok r => rw [getFailedAttempts_markCompleted]
  | error pe =>
      show getFailedAttempts st.1 i
        ≤ getFailedAttempts (markFailed st.1 img.id pe.message st.2) i
      by_cases hi : i = img.id
      · subst hi
        rw [getFailedAttempts_markFailed_self]
        exact Nat.le_succ _
      · rw [getFailedAttempts_markFailed_other st.1 img.id pe.message st.2 i hi]

theorem processChunk_outcomes_error (oracle : String → Nat → Except String α)
    (h : ∀ id n, ∃ m, oracle id n = Except.error m) :
    ∀ (chunk : List ImageDef) (st : Progress × Nat),
      (processChunk oracle chunk st).1
        = chunk.map (fun img => Outcome.failure img.id (errMsgOf oracle img)) := by
  intro chunk
  induction chunk with
  | nil => intro st; rfl
  | cons img rest ih =>
      intro st
      show ((stepImage oracle st img).1 :: (processChunk oracle rest _).1) = _
      rw [stepImage_error oracle st img (fun n => h img.id n), List.map_cons]
      exact congrArg _ (ih _)

theorem getFailedAttempts_processChunk_mono (oracle : String → Nat → Except String α) :
    ∀ (chunk : List ImageDef) (st : Progress × Nat) (i : String),
      getFailedAttempts st.1 i ≤ getFailedAttempts ((processChunk oracle chunk st).2.1) i := by
  intro chunk
  induction chunk with
  | nil => intro st i; exact Nat.le_refl _
  | cons img rest ih =>
      intro st i
      show getFailedAttempts st.1 i
        ≤ getFailedAttempts ((processChunk oracle rest
            ((stepImage oracle st img).2.1, (stepImage oracle st img).2.2)).2.1) i
      exact Nat.le_trans (getFailedAttempts_stepImage_mono oracle st img i)
        (ih ((stepImage oracle st img).2.1, (stepImage oracle st img).2.2) i)

theorem processChunk_attempts_error (oracle : String → Nat → Except String α)
    (h : ∀ id n, ∃ m, oracle id n = Except.error m) :
    ∀ (chunk : List ImageDef) (st : Progress × Nat) (img : ImageDef),
      img ∈ chunk → 1 ≤ getFailedAttempts ((processChunk oracle chunk st).2.1) img.id := by
  intro chunk
  induction chunk with
  | nil => intro st img hmem; simp at hmem
  | cons hd rest ih =>
      intro st img hmem
      show 1 ≤ getFailedAttempts ((processChunk oracle rest
          ((stepImage oracle st hd).2.1, (stepImage oracle st hd).2.2)).2.1) img.id
      rcases List.mem_cons.mp hmem with hcase | hcase
      · subst hcase
        have h1 : 1 ≤ getFailedAttempts ((stepImage oracle st img).2.1) img.id := by
          rw [stepImage_error oracle st img (fun n => h img.id n)]
          show 1 ≤ getFailedAttempts (markFailed st.1 img.id (errMsgOf oracle img) st.2) img.id
          rw [getFailedAttempts_markFailed_self]
          exact Nat.le_add_left 1 _
        exact Nat.le_trans h1
          (getFailedAttempts_processChunk_mono oracle rest
            ((stepImage oracle st img).2.1, (stepImage oracle st img).2.2) img.id)
      · exact ih ((stepImage oracle st hd).2.1, (stepImage oracle st hd).2.2) img hcase

theorem collectResults_failures (m : ImageDef → String) :
    ∀ (imgs : List ImageDef) (acc : BatchResults α),
      collectResults (imgs.map (fun img => Outcome.failure img.id (m img))) acc
        = { acc with failed := acc.failed ++ imgs.map (fun img => (img.id, m img)) } := by
  intro imgs
  induction imgs with
  | nil => intro acc; simp [collectResults]
  | cons img rest ih =>
      intro acc
      show collectResults (rest.map _) { acc with failed := acc.failed ++ [(img.id, m img)] } = _
      rw [ih]
      simp

theorem collectResults_counts :
    ∀ (outs : List (Outcome α)) (acc : BatchResults α),
      (collectResults outs acc).successful.length + (collectResults outs acc).failed.length
        = acc.successful.length + acc.failed.length + outs.length
      ∧ (collectResults outs acc).skipped = acc.skipped := by
  intro outs
  induction outs with
  | nil => intro acc; exact ⟨rfl, rfl⟩
  | cons o rest ih =>
      intro acc
      cases o with
      | success r =>
          simp only [collectResults]
          have := ih { acc with successful := acc.successful ++ [r] }
          refine ⟨?_, this.2⟩
          rw [this.1]
          simp [List.length_append]
          omega
      | failure i e =>
          simp only [collectResults]
          have := ih { acc with failed := acc.failed ++ [(i, e)] }
          refine ⟨?_, this.2⟩
          rw [this.1]
          simp [List.length_append]
          omega

theorem processChunk_length (oracle : String → Nat → Except String α) :
    ∀ (chunk : List ImageDef) (st : Progress × Nat),
      (processChunk oracle chunk st).1.length = chunk.length := by
  intro chunk
  induction chunk with
  | nil => intro st; rfl
  | cons img rest ih =>
      intro st
      show ((stepImage oracle st img).1 :: (processChunk oracle rest _).1).length = _
      rw [List.length_cons, List.length_cons, ih]

theorem runChunks_counts (oracle : String → Nat → Except String α) :
    ∀ (chunks : List (List ImageDef)) (st : Progress × Nat) (acc : BatchResults α),
      (runChunks oracle chunks st acc).1.successful.length
          + (runChunks oracle chunks st acc).1.failed.length
        = acc.successful.length + acc.failed.length + (chunks.map List.length).sum
      ∧ (runChunks oracle chunks st acc).1.skipped = acc.skipped := by
  intro chunks
  induction chunks with
  | nil => intro st acc; exact ⟨rfl, rfl⟩
  | cons chunk rest ih =>
      intro st acc
      show (runChunks oracle rest _ (collectResults (processChunk oracle chunk st).1 acc)).1.successful.length
            + (runChunks oracle rest _ (collectResults (processChunk oracle chunk st).1 acc)).1.failed.length
          = _
        ∧ (runChunks oracle rest _ (collectResults (processChunk oracle chunk st).1 acc)).1.skipped = _
      have hcoll := collectResults_counts (processChunk oracle chunk st).1 acc
      have hrec := ih ((processChunk oracle chunk st).2.1, (processChunk oracle chunk st).2.2)
        (collectResults (processChunk oracle chunk st).1 acc)
      refine ⟨?_, by rw [hrec.2, hcoll.2]⟩
      rw [hrec.1, hcoll.1, processChunk_length]
      simp [List.map_cons, List.sum_cons]
      omega

theorem runChunks_error (oracle : String → Nat → Except String α)
    (h : ∀ id n, ∃ m, oracle id n = Except.error m) :
    ∀ (chunks : List (List ImageDef)) (st : Progress × Nat) (acc : BatchResults α),
      (runChunks oracle chunks st acc).1.successful = acc.successful
      ∧ (runChunks oracle chunks st acc).1.failed
          = acc.failed ++ (chunks.flatten).map (fun img => (img.id, errMsgOf oracle img)) := by
  intro chunks
  induction chunks with
  | nil => intro st acc; exact ⟨rfl, by simp [runChunks]⟩
  | cons chunk rest ih =>
      intro st acc
      show (runChunks oracle rest _ (collectResults (processChunk oracle chunk st).1 acc)).1.successful = _
        ∧ (runChunks oracle rest _ (collectResults (processChunk oracle chunk st).1 acc)).1.failed = _
      rw [processChunk_outcomes_error oracle h chunk st, collectResults_failures]
      have hrec := ih ((processChunk oracle chunk st).2.1, (processChunk oracle chunk st).2.2)
        { acc with failed := acc.failed ++ chunk.map (fun img => (img.id, errMsgOf oracle img)) }
      refine ⟨hrec.1, ?_⟩
      rw [hrec.2]
      simp

theorem getFailedAttempts_runChunks_mono (oracle : String → Nat → Except String α) :
    ∀ (chunks : List (List ImageDef)) (st : Progress × Nat) (acc : BatchResults α) (i : String),
      getFailedAttempts st.1 i ≤ getFailedAttempts ((runChunks oracle chunks st acc).2.1) i := by
  intro chunks
  induction chunks with
  | nil => intro st acc i; exact Nat.le_refl _
  | cons chunk rest ih =>
      intro st acc i
      show getFailedAttempts st.1 i ≤ getFailedAttempts ((runChunks oracle rest
          ((processChunk oracle chunk st).2.1, (processChunk oracle chunk st).2.2) _).2.1) i
      exact Nat.le_trans (getFailedAttempts_processChunk_mono oracle chunk st i)
        (ih ((processChunk oracle chunk st).2.1, (processChunk oracle chunk st).2.2) _ i)

theorem runChunks_attempts_error (oracle : String → Nat → Except String α)
    (h : ∀ id n, ∃ m, oracle id n = Except.error m) :
    ∀ (chunks : List (List ImageDef)) (st : Progress × Nat) (acc : BatchResults α)
      (img : ImageDef), img ∈ chunks.flatten →
      1 ≤ getFailedAttempts ((runChunks oracle chunks st acc).2.1) img.id := by
  intro chunks
  induction chunks with
  | nil => intro st acc img hmem; simp at hmem
  | cons chunk rest ih =>
      intro st acc img hmem
      show 1 ≤ getFailedAttempts ((runChunks oracle rest
          ((processChunk oracle chunk st).2.1, (processChunk oracle chunk st).2.2) _).2.1) img.id
      rw [List.flatten_cons, List.mem_append] at hmem
      rcases hmem with hcase | hcase
      · exact Nat.le_trans (processChunk_attempts_error oracle h chunk st img hcase)
          (getFailedAttempts_runChunks_mono oracle rest
            ((processChunk oracle chunk st).2.1, (processChunk oracle chunk st).2.2) _ img.id)
      · exact ih ((processChunk oracle chunk st).2.1, (processChunk oracle chunk st).2.2) _ img hcase

theorem chunkArray_length_sum (l : List ImageDef) (n : Nat) (h : 0 < n) :
    ((chunkArray l n).map List.length).sum = l.length := by
  rw [← List.length_flatten]
  show (chunkLoop n l.length l).flatten.length = l.length
  rw [chunkLoop_flatten n h l.length l (Nat.le_refl _)]

theorem chunkArray_flatten (l : List β) (n : Nat) (h : 0 < n) :
    (chunkArray l n).flatten = l :=
  chunkLoop_flatten n h l.length l (Nat.le_refl _)

theorem generateBatch_def (oracle : String → Nat → Except String α)
    (images : List ImageDef) (opts : BatchOptions) (p : Progress) (t : Nat) :
    generateBatch oracle images opts p t
      = runChunks oracle
          (chunkArray (getRemaining (if opts.freshStart then clearProgress t else p) images 3)
            opts.concurrency)
          ((if opts.freshStart then clearProgress t else p),
           (if opts.freshStart then t + 1 else t))
          { successful := [], failed := [],
            skipped := images.length
              - (getRemaining (if opts.freshStart then clearProgress t else p) images 3).length } :=
  rfl

/-- Claim C6: the batch summary satisfies skipped equal to the input
length minus the remaining length, and every remaining request
contributes exactly one entry to successes or failures, so the two
lengths sum to the remaining length; on three fresh requests with an
always-succeeding remote call, all three succeed with nothing failed or
skipped. -/
theorem generateBatch_counts (α : Type) (oracle : String → Nat → Except String α)
    (images : List ImageDef) (opts : BatchOptions) (p : Progress) (t : Nat)
    (h : 0 < opts.concurrency) :
    (generateBatch oracle images opts p t).1.skipped
        = images.length
          - (getRemaining (if opts.freshStart then clearProgress t else p) images 3).length
    ∧ (generateBatch oracle images opts p t).1.successful.length
          + (generateBatch oracle images opts p t).1.failed.length
        = (getRemaining (if opts.freshStart then clearProgress t else p) images 3).length
    ∧ (generateBatch (fun _ _ => (Except.ok () : Except String Unit))
          [⟨"a", "pa"⟩, ⟨"b", "pb"⟩, ⟨"c", "pc"⟩] {} ⟨[], [], 0⟩ 0).1.successful.length = 3
    ∧ (generateBatch (fun _ _ => (Except.ok () : Except String Unit))
          [⟨"a", "pa"⟩, ⟨"b", "pb"⟩, ⟨"c", "pc"⟩] {} ⟨[], [], 0⟩ 0).1.failed = []
    ∧ (generateBatch (fun _ _ => (Except.ok () : Except String Unit))
          [⟨"a", "pa"⟩, ⟨"b", "pb"⟩, ⟨"c", "pc"⟩] {} ⟨[], [], 0⟩ 0).1.skipped = 0 := by
  refine ⟨?_, ?_, rfl, rfl, rfl⟩
  · rw [generateBatch_def]
    exact (runChunks_counts oracle _ _ _).2
  · rw [generateBatch_def, (runChunks_counts oracle _ _ _).1]
    simp
    exact chunkArray_length_sum _ opts.concurrency h

/-- Witness for C6 at a concrete oracle, request list and options. -/
theorem generateBatch_counts_witness :
    (generateBatch (fun _ _ => (Except.error "x" : Except String Unit))
        [⟨"u", "pu"⟩] {} ⟨[], [], 0⟩ 0).1.skipped
        = ([(⟨"u", "pu"⟩ : ImageDef)]).length
          - (getRemaining (if ({} : BatchOptions).freshStart then clearProgress 0
              else ⟨[], [], 0⟩) [⟨"u", "pu"⟩] 3).length
    ∧ (generateBatch (fun _ _ => (Except.error "x" : Except String Unit))
          [⟨"u", "pu"⟩] {} ⟨[], [], 0⟩ 0).1.successful.length
          + (generateBatch (fun _ _ => (Except.error "x" : Except String Unit))
              [⟨"u", "pu"⟩] {} ⟨[], [], 0⟩ 0).1.failed.length
        = (getRemaining (if ({} : BatchOptions).freshStart then clearProgress 0
            else ⟨[], [], 0⟩) [⟨"u", "pu"⟩] 3).length
    ∧ (generateBatch (fun _ _ => (Except.ok () : Except String Unit))
          [⟨"a", "pa"⟩, ⟨"b", "pb"⟩, ⟨"c", "pc"⟩] {} ⟨[], [], 0⟩ 0).1.successful.length = 3
    ∧ (generateBatch (fun _ _ => (Except.ok () : Except String Unit))
          [⟨"a", "pa"⟩, ⟨"b", "pb"⟩, ⟨"c", "pc"⟩] {} ⟨[], [], 0⟩ 0).1.failed = []
    ∧ (generateBatch (fun _ _ => (Except.ok () : Except String Unit))
          [⟨"a", "pa"⟩, ⟨"b", "pb"⟩, ⟨"c", "pc"⟩] {} ⟨[], [], 0⟩ 0).1.skipped = 0 :=
  generateBatch_counts Unit (fun _ _ => (Except.error "x" : Except String Unit))
    [⟨"u", "pu"⟩] {} ⟨[], [], 0⟩ 0 (by decide)

/-- Claim C5: the batch run is total — it returns a summary even when
every request execution fails; every per-request failure is caught and
appended to the failures list (one entry per remaining request, in
order, keyed by the request id), recorded in the progress store, and no
failure disturbs the processing of the other requests. -/
theorem generateBatch_failures (α : Type) (oracle : String → Nat → Except String α)
    (images : List ImageDef) (opts : BatchOptions) (p : Progress) (t : Nat)
    (hconc : 0 < opts.concurrency)
    (hAllErr : ∀ id n, ∃ m, oracle id n = Except.error m) :
    (generateBatch oracle images opts p t).1.successful = []
    ∧ (generateBatch oracle images opts p t).1.failed.map Prod.fst
        = (getRemaining (if opts.freshStart then clearProgress t else p) images 3).map ImageDef.id
    ∧ ∀ r ∈ getRemaining (if opts.freshStart then clearProgress t else p) images 3,
        1 ≤ getFailedAttempts (generateBatch oracle images opts p t).2.1 r.id := by
  have hflat := chunkArray_flatten
    (getRemaining (if opts.freshStart then clearProgress t else p) images 3)
    opts.concurrency hconc
  have hrun := runChunks_error oracle hAllErr
    (chunkArray (getRemaining (if opts.freshStart then clearProgress t else p) images 3)
      opts.concurrency)
    ((if opts.freshStart then clearProgress t else p),
     (if opts.freshStart then t + 1 else t))
    { successful := [], failed := [],
      skipped := images.length
        - (getRemaining (if opts.freshStart then clearProgress t else p) images 3).length }
  refine ⟨?_, ?_, ?_⟩
  · rw [generateBatch_def]
    exact hrun.1
  · rw [generateBatch_def, hrun.2, hflat]
    simp
  · intro r hr
    rw [generateBatch_def]
    exact runChunks_attempts_error oracle hAllErr _ _ _ r (by rw [hflat]; exact hr)

/-- Witness for C5 at a concrete always-failing oracle on two requests. -/
theorem generateBatch_failures_witness :
    (generateBatch (fun _ _ => (Except.error "boom" : Except String Unit))
        [⟨"a", "pa"⟩, ⟨"b", "pb"⟩] {} ⟨[], [], 0⟩ 0).1.successful = []
    ∧ (generateBatch (fun _ _ => (Except.error "boom" : Except String Unit))
          [⟨"a", "pa"⟩, ⟨"b", "pb"⟩] {} ⟨[], [], 0⟩ 0).1.failed.map Prod.fst
        = (getRemaining (if ({} : BatchOptions).freshStart then clearProgress 0
            else ⟨[], [], 0⟩) [⟨"a", "pa"⟩, ⟨"b", "pb"⟩] 3).map ImageDef.id
    ∧ ∀ r ∈ getRemaining (if ({} : BatchOptions).freshStart then clearProgress 0
          else ⟨[], [], 0⟩) [⟨"a", "pa"⟩, ⟨"b", "pb"⟩] 3,
        1 ≤ getFailedAttempts
          (generateBatch (fun _ _ => (Except.error "boom" : Except String Unit))
            [⟨"a", "pa"⟩, ⟨"b", "pb"⟩] {} ⟨[], [], 0⟩ 0).2.1 r.id :=
  generateBatch_failures Unit (fun _ _ => (Except.error "boom" : Except String Unit))
    [⟨"a", "pa"⟩, ⟨"b", "pb"⟩] {} ⟨[], [], 0⟩ 0 (by decide)
    (fun id n => ⟨"boom", rfl⟩)

end Gobananas
